import Mathlib

/-!
Verification of the doodle server's room state machine.

This file gives a shallow embedding of the core of `src/server.ts`: the
`Drawing` class (one collaborative room's edit log, logical clock, snapshot
image and debounced persistence) and the HTTP-level snapshot read handler.

Modelling conventions:
- Edits are opaque; the embedding is polymorphic in the edit type `E`.
- JS numbers holding logical times are modelled as `Int` (callers may send
  arbitrary integers over the wire); list lengths are `Nat` with explicit
  casts.
- Wall-clock time (`Date.now()`) is threaded as an explicit `now : Int`
  argument into the operations that read it.
- Waiter callbacks (`TimerHandler`) are opaque; the wait set is modelled as a
  list of abstract tokens, enough to observe that `apply` clears it and that a
  failed `apply` leaves it alone.
- Exceptions become `Except`-style results paired with the post-state; an
  operation that throws before mutating returns the original state unchanged,
  exactly as the JS code does.
- The per-room file `images/<id>.json` is modelled as a single `Disk` cell
  holding the last written record, plus a write counter so that "a write of
  the durable record happened" is observable.
- Omitted: the `id` string (only used to build the file name), the registry
  map, the cleanup timer and the in-flight-load promise; no claim below is
  about them.
-/

/-- Equality of `Except` results is decidable when both components are; used
to evaluate the embedded operations on concrete inputs. -/
instance {ε α : Type} [DecidableEq ε] [DecidableEq α] : DecidableEq (Except ε α) :=
  fun a b =>
    match a, b with
    | .error x, .error y =>
        if h : x = y then .isTrue (congrArg Except.error h)
        else .isFalse (fun hh => h (Except.error.inj hh))
    | .ok x, .ok y =>
        if h : x = y then .isTrue (congrArg Except.ok h)
        else .isFalse (fun hh => h (Except.ok.inj hh))
    | .error _, .ok _ => .isFalse (fun hh => Except.noConfusion hh)
    | .ok _, .error _ => .isFalse (fun hh => Except.noConfusion hh)

namespace Doodle

/-- Typed failures surfaced to callers of the room operations. -/
inductive RoomError
  | invalidArgument
  | notAvailable
deriving DecidableEq, Repr

/-- Result of a call to `updates`: the out-of-range error, a long-poll
suspension (the `await this.anyUpdates()` branch), or a list of edits. -/
inductive UpdatesOutcome (E : Type)
  | outOfRange
  | suspend
  | ok (edits : List E)
deriving DecidableEq, Repr

/-- In-memory state of one room: the mutable fields of `class Drawing` in
`src/server.ts` (field order: `image`, `lastAccess`, `edits`, `logicalTime`,
`waiters`, `lastSave`). -/
structure Drawing (E : Type) where
  image : Option String
  lastAccess : Int
  edits : List E
  logicalTime : Int
  waiters : List Nat
  lastSave : Int
deriving DecidableEq, Repr

/-- The persisted record layout (`type ImageFile` in `src/server.ts`): the
object written by `Drawing.save` and parsed by `Drawing.load`. -/
structure ImageFile (E : Type) where
  image : Option String
  logicalTime : Int
  edits : List E
deriving DecidableEq, Repr

/-- The durable store for one room (the file `images/<id>.json`): the record
last written, if any, and a counter of completed writes. -/
structure Disk (E : Type) where
  record : Option (ImageFile E)
  writeCount : Nat
deriving DecidableEq, Repr

variable {E : Type}

/-- The disk before anything was ever written. -/
def emptyDisk : Disk E := ⟨none, 0⟩

/-- `new Drawing(id)`: no image, empty log, logical time 0, no waiters,
`lastSave = 0`; `lastAccess` is the current wall-clock time. -/
def newDrawing (now : Int) : Drawing E :=
  ⟨none, now, [], 0, [], 0⟩

/-- `Drawing.snapshotTime()`: `this.logicalTime - this.edits.length`. -/
def Drawing.snapshotTime (d : Drawing E) : Int :=
  d.logicalTime - d.edits.length

/-- The record `{image, logicalTime, edits}` that `Drawing.save` serializes. -/
def Drawing.mkRecord (d : Drawing E) : ImageFile E :=
  ⟨d.image, d.logicalTime, d.edits⟩

/-- `d` with `this.lastAccess = Date.now()` applied, nothing else changed. -/
def Drawing.touch (d : Drawing E) (now : Int) : Drawing E :=
  ⟨d.image, now, d.edits, d.logicalTime, d.waiters, d.lastSave⟩

/-- `Array.prototype.slice(start)` on a JS array, for an arbitrary integer
`start`: a negative `start` counts from the end (clamped at 0), a `start`
beyond the length yields the empty array. -/
def jsSlice (l : List E) (start : Int) : List E :=
  if start < 0 then l.drop (l.length + start).toNat else l.drop start.toNat

/-- `Drawing.apply(edits)`: throws (before any mutation) if `edits` is empty;
otherwise updates `lastAccess`, pushes the edits, advances `logicalTime` by
their number, clears the wait set, and returns the new `logicalTime`. -/
def Drawing.apply (now : Int) (d : Drawing E) (es : List E) :
    Except RoomError Int × Drawing E :=
  if es.length = 0 then
    (Except.error RoomError.invalidArgument, d)
  else
    let d' : Drawing E :=
      ⟨d.image, now, d.edits ++ es, d.logicalTime + es.length, [], d.lastSave⟩
    (Except.ok d'.logicalTime, d')

/-- `Drawing.updates(logicalTime)`: sets `lastAccess`, throws if the cursor
precedes the snapshot, suspends (awaits `anyUpdates`) if the caller is exactly
caught up, and otherwise returns
`this.edits.slice(this.edits.length - (this.logicalTime - logicalTime))`. -/
def Drawing.updates (now : Int) (d : Drawing E) (t : Int) :
    UpdatesOutcome E × Drawing E :=
  if t < (d.touch now).snapshotTime then
    (UpdatesOutcome.outOfRange, d.touch now)
  else if t = (d.touch now).logicalTime then
    (UpdatesOutcome.suspend, d.touch now)
  else
    (UpdatesOutcome.ok
      (jsSlice (d.touch now).edits
        (((d.touch now).edits.length : Int) - ((d.touch now).logicalTime - t))),
     d.touch now)

/-- `Drawing.save()`: skips the write when `logicalTime == lastSave`,
otherwise writes `{image, logicalTime, edits}` to the room's file and records
the saved logical time. -/
def Drawing.save (d : Drawing E) (disk : Disk E) : Drawing E × Disk E :=
  if d.logicalTime = d.lastSave then
    (d, disk)
  else
    (⟨d.image, d.lastAccess, d.edits, d.logicalTime, d.waiters, d.logicalTime⟩,
     ⟨some d.mkRecord, disk.writeCount + 1⟩)

/-- The mutation phase of `Drawing.snapshot(logicalTime, value)` (its `if`
statement): when `snapshotTime() < logicalTime` it stores the image and
splices `logicalTime - snapshotTime()` entries off the front of the log
(`Array.prototype.splice` clamps the count at the array length, which
`List.drop` matches); otherwise it changes nothing. -/
def Drawing.compact (d : Drawing E) (t : Int) (value : String) : Drawing E :=
  if d.snapshotTime < t then
    ⟨some value, d.lastAccess, d.edits.drop (t - d.snapshotTime).toNat,
     d.logicalTime, d.waiters, d.lastSave⟩
  else d

/-- `Drawing.snapshot(logicalTime, value)`: the conditional mutation above,
always followed by a call to `save`. -/
def Drawing.snapshot (d : Drawing E) (t : Int) (value : String) (disk : Disk E) :
    Drawing E × Disk E :=
  (d.compact t value).save disk

/-- The state-restoring part of the static `Drawing.load`: a fresh drawing,
with `image`, `logicalTime`, `edits` and `lastSave` taken from the parsed file
when the read succeeds, and left at their defaults when it does not. -/
def Drawing.load (now : Int) (rec : Option (ImageFile E)) : Drawing E :=
  match rec with
  | some f => ⟨f.image, now, f.edits, f.logicalTime, [], f.logicalTime⟩
  | none => newDrawing now

/-- The HTTP handler `snapshot` in `src/server.ts` (the spec's
`readSnapshot`): serves `(snapshotTime(), image)` when `drawing.image` is
truthy, and the `No snapshot available.` error when it is not. A JS string is
falsy exactly when it is empty, and `null` is falsy. -/
def readSnapshot (d : Drawing E) : Except RoomError (Int × String) :=
  match d.image with
  | some s =>
      if s = "" then Except.error RoomError.notAvailable
      else Except.ok (d.snapshotTime, s)
  | none => Except.error RoomError.notAvailable

/-- Room states reachable from a fresh room through the operations named in
the invariant claim: `apply`, `updates` and `snapshot` (with any disk);
`snapshotTime` and `readSnapshot` are pure and do not change the state. -/
inductive Reachable : Drawing E → Prop
  | init (now : Int) : Reachable (newDrawing now)
  | appl (now : Int) (es : List E) (d : Drawing E) :
      Reachable d → Reachable (Drawing.apply now d es).2
  | upd (now t : Int) (d : Drawing E) :
      Reachable d → Reachable (Drawing.updates now d t).2
  | snap (t : Int) (v : String) (disk : Disk E) (d : Drawing E) :
      Reachable d → Reachable (Drawing.snapshot d t v disk).1

/-! Small rewriting lemmas about the embedded operations. -/

theorem touch_image (d : Drawing E) (now : Int) : (d.touch now).image = d.image := rfl

theorem touch_edits (d : Drawing E) (now : Int) : (d.touch now).edits = d.edits := rfl

theorem touch_logicalTime (d : Drawing E) (now : Int) :
    (d.touch now).logicalTime = d.logicalTime := rfl

theorem touch_snapshotTime (d : Drawing E) (now : Int) :
    (d.touch now).snapshotTime = d.snapshotTime := rfl

theorem save_fst_image (d : Drawing E) (disk : Disk E) :
    (d.save disk).1.image = d.image := by
  unfold Drawing.save; split <;> rfl

theorem save_fst_edits (d : Drawing E) (disk : Disk E) :
    (d.save disk).1.edits = d.edits := by
  unfold Drawing.save; split <;> rfl

theorem save_fst_logicalTime (d : Drawing E) (disk : Disk E) :
    (d.save disk).1.logicalTime = d.logicalTime := by
  unfold Drawing.save; split <;> rfl

theorem save_fst_snapshotTime (d : Drawing E) (disk : Disk E) :
    (d.save disk).1.snapshotTime = d.snapshotTime := by
  unfold Drawing.snapshotTime
  rw [save_fst_edits, save_fst_logicalTime]

theorem compact_logicalTime (d : Drawing E) (t : Int) (v : String) :
    (d.compact t v).logicalTime = d.logicalTime := by
  unfold Drawing.compact; split <;> rfl

theorem compact_lastSave (d : Drawing E) (t : Int) (v : String) :
    (d.compact t v).lastSave = d.lastSave := by
  unfold Drawing.compact; split <;> rfl

/-! The claims. -/

/-- C1: for every room reachable through the operations (`apply`, `updates`,
`snapshot`; `snapshotTime` and `readSnapshot` are pure), `snapshotTime()`
equals `logicalTime` minus the length of the edit log, and `snapshotTime()`
is non-negative. -/
theorem snapshotTime_invariant {E : Type} (d : Drawing E) (h : Reachable d) :
    d.snapshotTime = d.logicalTime - d.edits.length ∧ 0 ≤ d.snapshotTime := by
  refine ⟨rfl, ?_⟩
  induction h with
  | init now => simp [newDrawing, Drawing.snapshotTime]
  | appl now es d hd ih =>
      by_cases hes : es.length = 0
      · simpa [Drawing.apply, hes] using ih
      · simp only [Drawing.apply, if_neg hes, Drawing.snapshotTime] at ih ⊢
        simp only [List.length_append]
        omega
  | upd now t d hd ih =>
      unfold Drawing.updates
      split_ifs <;> simpa [touch_snapshotTime] using ih
  | snap t v disk d hd ih =>
      unfold Drawing.snapshot
      rw [save_fst_snapshotTime]
      unfold Drawing.compact
      split_ifs with hc
      · simp only [Drawing.snapshotTime, List.length_drop] at ih ⊢
        omega
      · exact ih

/-- C1 witness: the invariant instantiated at a fresh room. -/
theorem snapshotTime_invariant_witness :
    (newDrawing 0 : Drawing Nat).snapshotTime
        = (newDrawing 0 : Drawing Nat).logicalTime
            - (newDrawing 0 : Drawing Nat).edits.length
    ∧ 0 ≤ (newDrawing 0 : Drawing Nat).snapshotTime :=
  snapshotTime_invariant (newDrawing 0) (Reachable.init 0)

/-- C2: for `snapshotTime() ≤ from < logicalTime`, `updates(from)` returns
exactly the edits of the log at indices `≥ |editLog| − (logicalTime − from)`
(the suffix applied strictly after `from`, in original order); and for every
cursor, `updates` fails with the out-of-range error iff the cursor precedes
`snapshotTime()`. -/
theorem updates_in_range {E : Type} (d : Drawing E) (t now : Int)
    (h1 : d.snapshotTime ≤ t) (h2 : t < d.logicalTime) :
    (Drawing.updates now d t).1
      = UpdatesOutcome.ok
          (d.edits.drop ((d.edits.length : Int) - (d.logicalTime - t)).toNat)
    ∧ ∀ t' : Int,
        ((Drawing.updates now d t').1 = UpdatesOutcome.outOfRange
          ↔ t' < d.snapshotTime) := by
  constructor
  · have hn1 : ¬ t < (d.touch now).snapshotTime := by
      rw [touch_snapshotTime]; exact not_lt.mpr h1
    have hn2 : ¬ t = (d.touch now).logicalTime := by
      rw [touch_logicalTime]; exact ne_of_lt h2
    unfold Drawing.updates
    rw [if_neg hn1, if_neg hn2]
    simp only [touch_edits, touch_logicalTime]
    congr 1
    unfold jsSlice
    rw [if_neg]
    unfold Drawing.snapshotTime at h1
    omega
  · intro t'
    unfold Drawing.updates
    split_ifs with ha hb
    · rw [touch_snapshotTime] at ha
      simpa using ha
    · rw [touch_snapshotTime] at ha
      simpa using ha
    · rw [touch_snapshotTime] at ha
      simpa using ha

/-- C2 witness: on a room at logical time 2 with log `[5, 6]`, `updates(1)`
returns `[6]`. -/
theorem updates_in_range_witness :
    (Drawing.updates 0 (⟨none, 0, [5, 6], 2, [], 0⟩ : Drawing Nat) 1).1
      = UpdatesOutcome.ok [6] := by
  have h := updates_in_range (⟨none, 0, [5, 6], 2, [], 0⟩ : Drawing Nat) 1 0
    (by decide) (by decide)
  rw [h.1]
  rfl

/-- C3 counterexample: on a fresh room (logical time 0, empty log),
`snapshot(1, "a")` satisfies the claim's guard `1 > snapshotTime()`, yet
afterward `snapshotTime()` is 0, not 1 — the splice cannot remove more
entries than the log holds, so the claim fails whenever `t > logicalTime`. -/
theorem snapshot_overshoot_counterexample :
    (newDrawing 0 : Drawing Nat).snapshotTime < 1
    ∧ (Drawing.snapshot (newDrawing 0 : Drawing Nat) 1 "a" emptyDisk).1.snapshotTime
        ≠ 1 := by
  decide

/-- C3 amended: for `snapshotTime() < t ≤ logicalTime`, `snapshot(t, image)`
sets the stored image, removes exactly `t − snapshotTime()` entries from the
front of the edit log, and afterward `snapshotTime()` equals `t` while
`logicalTime` is unchanged. -/
theorem snapshot_compacts {E : Type} (d : Drawing E) (t : Int) (v : String)
    (disk : Disk E) (h1 : d.snapshotTime < t) (h2 : t ≤ d.logicalTime) :
    (d.snapshot t v disk).1.image = some v
    ∧ (d.snapshot t v disk).1.edits = d.edits.drop (t - d.snapshotTime).toNat
    ∧ (d.edits.length : Int) - (d.snapshot t v disk).1.edits.length
        = t - d.snapshotTime
    ∧ (d.snapshot t v disk).1.snapshotTime = t
    ∧ (d.snapshot t v disk).1.logicalTime = d.logicalTime := by
  unfold Drawing.snapshot
  rw [save_fst_image, save_fst_edits, save_fst_snapshotTime, save_fst_logicalTime]
  unfold Drawing.compact
  rw [if_pos h1]
  unfold Drawing.snapshotTime at h1 ⊢
  refine ⟨rfl, rfl, ?_, ?_, rfl⟩
  · simp only [List.length_drop]
    omega
  · simp only [List.length_drop]
    omega

/-- C3 amended witness: at logical time 3 with log `[7, 8, 9]`,
`snapshot(2, "img")` keeps `[9]` and moves `snapshotTime()` to 2. -/
theorem snapshot_compacts_witness :
    (Drawing.snapshot (⟨none, 0, [7, 8, 9], 3, [], 0⟩ : Drawing Nat) 2 "img"
        emptyDisk).1.image = some "img"
    ∧ (Drawing.snapshot (⟨none, 0, [7, 8, 9], 3, [], 0⟩ : Drawing Nat) 2 "img"
        emptyDisk).1.edits = [9]
    ∧ (Drawing.snapshot (⟨none, 0, [7, 8, 9], 3, [], 0⟩ : Drawing Nat) 2 "img"
        emptyDisk).1.snapshotTime = 2 := by
  have h := snapshot_compacts (⟨none, 0, [7, 8, 9], 3, [], 0⟩ : Drawing Nat) 2 "img"
    emptyDisk (by decide) (by decide)
  refine ⟨h.1, ?_, h.2.2.2.1⟩
  rw [h.2.1]
  rfl

/-- C4: for a non-empty batch, `apply(edits)` appends the edits to the end of
the log contiguously and in order, advances `logicalTime` by the batch size,
and returns the new `logicalTime`. -/
theorem apply_appends {E : Type} (d : Drawing E) (es : List E) (now : Int)
    (h : es ≠ []) :
    (Drawing.apply now d es).1 = Except.ok (d.logicalTime + es.length)
    ∧ (Drawing.apply now d es).2.edits = d.edits ++ es
    ∧ (Drawing.apply now d es).2.logicalTime = d.logicalTime + es.length := by
  have hes : ¬ es.length = 0 := by simpa using h
  unfold Drawing.apply
  rw [if_neg hes]
  exact ⟨rfl, rfl, rfl⟩

/-- C4 witness: applying `[3, 4]` to a fresh room returns logical time 2 with
log `[3, 4]`. -/
theorem apply_appends_witness :
    (Drawing.apply 5 (newDrawing 0 : Drawing Nat) [3, 4]).1 = Except.ok 2
    ∧ (Drawing.apply 5 (newDrawing 0 : Drawing Nat) [3, 4]).2.edits = [3, 4]
    ∧ (Drawing.apply 5 (newDrawing 0 : Drawing Nat) [3, 4]).2.logicalTime = 2 := by
  have h := apply_appends (newDrawing 0 : Drawing Nat) [3, 4] 5 (by decide)
  exact ⟨h.1, h.2.1, h.2.2⟩

/-- C5: `apply([])` always fails with the invalid-argument error, and the
entire room state (image, last-access time, edit log, logical time, wait set,
last-save time) is unchanged — the throw happens before any mutation. -/
theorem apply_empty_unchanged {E : Type} (d : Drawing E) (now : Int) :
    (Drawing.apply now d []).1 = Except.error RoomError.invalidArgument
    ∧ (Drawing.apply now d []).2 = d :=
  ⟨rfl, rfl⟩

/-- C6 counterexample: apply one edit, save, then compact with
`snapshot(1, "img")`. The snapshot's save is skipped because `logicalTime`
still equals `lastSave`, so saving and reloading yields the pre-compaction
record `(none, 1, [7])`, not the in-memory triple `(some "img", 1, [])`. -/
theorem save_load_roundtrip_counterexample :
    let d0 : Drawing Nat := newDrawing 0
    let d1 := (Drawing.apply 0 d0 [7]).2
    let p1 := d1.save emptyDisk
    let p2 := p1.1.snapshot 1 "img" p1.2
    let p3 := p2.1.save p2.2
    let r := Drawing.load 0 p3.2.record
    (r.image, r.logicalTime, r.edits) ≠ (p3.1.image, p3.1.logicalTime, p3.1.edits) := by
  decide

/-- C6 amended: whenever the save is not skipped (`logicalTime ≠ lastSave`),
saving the room's durable record and loading it back yields the identical
`(image, logicalTime, editLog)` triple. -/
theorem save_load_roundtrip {E : Type} (d : Drawing E) (disk : Disk E) (now : Int)
    (h : d.logicalTime ≠ d.lastSave) :
    ((Drawing.load now (d.save disk).2.record).image,
     (Drawing.load now (d.save disk).2.record).logicalTime,
     (Drawing.load now (d.save disk).2.record).edits)
      = (d.image, d.logicalTime, d.edits) := by
  unfold Drawing.save
  rw [if_neg h]
  rfl

/-- C6 amended witness: a room with unsaved edits round-trips its triple. -/
theorem save_load_roundtrip_witness :
    ((Drawing.load 9 ((⟨some "x", 0, [4], 3, [], 0⟩ : Drawing Nat).save
        emptyDisk).2.record).image,
     (Drawing.load 9 ((⟨some "x", 0, [4], 3, [], 0⟩ : Drawing Nat).save
        emptyDisk).2.record).logicalTime,
     (Drawing.load 9 ((⟨some "x", 0, [4], 3, [], 0⟩ : Drawing Nat).save
        emptyDisk).2.record).edits)
      = (some "x", 3, [4]) :=
  save_load_roundtrip (⟨some "x", 0, [4], 3, [], 0⟩ : Drawing Nat) emptyDisk 9
    (by decide)

/-- C7 counterexample: `snapshot(1, "")` on a fresh room stores the empty
string as the image — an image has been set — yet the snapshot read handler
still reports no snapshot available, because the JS truthiness test
`if (drawing.image)` treats the empty string as falsy. -/
theorem readSnapshot_empty_image_counterexample :
    (Drawing.snapshot (newDrawing 0 : Drawing Nat) 1 "" emptyDisk).1.image = some ""
    ∧ readSnapshot (Drawing.snapshot (newDrawing 0 : Drawing Nat) 1 "" emptyDisk).1
        = Except.error RoomError.notAvailable := by
  decide

/-- C7 amended: the snapshot read fails with not-available iff the stored
image is absent or the empty string (JS-falsy); otherwise it returns the pair
`(snapshotTime(), image)`. -/
theorem readSnapshot_available {E : Type} (d : Drawing E) :
    (readSnapshot d = Except.error RoomError.notAvailable
        ↔ (d.image = none ∨ d.image = some ""))
    ∧ ∀ s : String, d.image = some s → s ≠ "" →
        readSnapshot d = Except.ok (d.snapshotTime, s) := by
  constructor
  · unfold readSnapshot
    match hd : d.image with
    | none => simp
    | some s =>
        by_cases hs : s = ""
        · simp [hs]
        · simp [hs]
  · intro s hs hne
    unfold readSnapshot
    rw [hs]
    simp [hne]

/-- C7 amended witness: with image `"x"` at snapshot time 2 the read serves
`(2, "x")`. -/
theorem readSnapshot_available_witness :
    (readSnapshot (⟨some "x", 0, [4], 3, [], 0⟩ : Drawing Nat)
          = Except.error RoomError.notAvailable
        ↔ ((⟨some "x", 0, [4], 3, [], 0⟩ : Drawing Nat).image = none
            ∨ (⟨some "x", 0, [4], 3, [], 0⟩ : Drawing Nat).image = some ""))
    ∧ readSnapshot (⟨some "x", 0, [4], 3, [], 0⟩ : Drawing Nat)
        = Except.ok (2, "x") := by
  have h := readSnapshot_available (⟨some "x", 0, [4], 3, [], 0⟩ : Drawing Nat)
  exact ⟨h.1, h.2 "x" rfl (by decide)⟩

/-- C8 counterexample: after one applied edit and a save, `snapshot(1, "img")`
changes the stored image but performs no write of the durable record, because
`save` skips the write while `logicalTime` equals `lastSave`. -/
theorem snapshot_write_skipped_counterexample :
    let d0 : Drawing Nat := newDrawing 0
    let d1 := (Drawing.apply 0 d0 [7]).2
    let p1 := d1.save emptyDisk
    let p2 := p1.1.snapshot 1 "img" p1.2
    p2.1.image ≠ p1.1.image ∧ p2.2.writeCount = p1.2.writeCount := by
  decide

/-- C8 amended: every `snapshot(t, image)` call ends by invoking `save`, but
the durable record is actually written iff `logicalTime ≠ lastSave` at that
point (the mutation phase changes neither field); when it is written it holds
the room's post-call image, logical time and edit log. -/
theorem snapshot_triggers_save {E : Type} (d : Drawing E) (t : Int) (v : String)
    (disk : Disk E) :
    (d.snapshot t v disk) = (d.compact t v).save disk
    ∧ (d.snapshot t v disk).2.writeCount
        = (if d.logicalTime = d.lastSave then disk.writeCount
           else disk.writeCount + 1)
    ∧ (d.snapshot t v disk).2.record
        = (if d.logicalTime = d.lastSave then disk.record
           else some (Drawing.mkRecord (d.snapshot t v disk).1)) := by
  refine ⟨rfl, ?_, ?_⟩
  · unfold Drawing.snapshot Drawing.save
    rw [compact_logicalTime, compact_lastSave]
    split <;> rfl
  · unfold Drawing.snapshot Drawing.save
    rw [compact_logicalTime, compact_lastSave]
    split
    · rfl
    · simp [Drawing.mkRecord, compact_logicalTime]

/-- C9: a stale or duplicate compaction, `snapshot(t, image)` with
`t ≤ snapshotTime()`, leaves the stored image and the edit log unchanged. -/
theorem snapshot_stale_noop {E : Type} (d : Drawing E) (t : Int) (v : String)
    (disk : Disk E) (h : t ≤ d.snapshotTime) :
    (d.snapshot t v disk).1.image = d.image
    ∧ (d.snapshot t v disk).1.edits = d.edits := by
  have hc : d.compact t v = d := by
    unfold Drawing.compact
    rw [if_neg (not_lt.mpr h)]
  unfold Drawing.snapshot
  rw [hc, save_fst_image, save_fst_edits]
  exact ⟨rfl, rfl⟩

/-- C9 witness: at snapshot time 2, `snapshot(1, "y")` changes nothing. -/
theorem snapshot_stale_noop_witness :
    (Drawing.snapshot (⟨some "x", 0, [4], 3, [], 0⟩ : Drawing Nat) 1 "y"
        emptyDisk).1.image = some "x"
    ∧ (Drawing.snapshot (⟨some "x", 0, [4], 3, [], 0⟩ : Drawing Nat) 1 "y"
        emptyDisk).1.edits = [4] :=
  snapshot_stale_noop (⟨some "x", 0, [4], 3, [], 0⟩ : Drawing Nat) 1 "y" emptyDisk
    (by decide)

/-- C10: a cursor ahead of the room's clock (`from > logicalTime`) neither
fails nor suspends: `updates(from)` returns the empty list immediately (the
slice start lies past the end of the array) and leaves the edit log, the
logical time and the stored image unchanged. -/
theorem updates_ahead_empty {E : Type} (d : Drawing E) (t now : Int)
    (h : d.logicalTime < t) :
    (Drawing.updates now d t).1 = UpdatesOutcome.ok []
    ∧ (Drawing.updates now d t).2.edits = d.edits
    ∧ (Drawing.updates now d t).2.logicalTime = d.logicalTime
    ∧ (Drawing.updates now d t).2.image = d.image := by
  have hst : d.snapshotTime ≤ d.logicalTime := by
    unfold Drawing.snapshotTime
    omega
  have hn1 : ¬ t < (d.touch now).snapshotTime := by
    rw [touch_snapshotTime]; omega
  have hn2 : ¬ t = (d.touch now).logicalTime := by
    rw [touch_logicalTime]; omega
  unfold Drawing.updates
  rw [if_neg hn1, if_neg hn2]
  refine ⟨?_, rfl, rfl, rfl⟩
  simp only [touch_edits, touch_logicalTime]
  congr 1
  unfold jsSlice
  rw [if_neg (by omega)]
  rw [List.drop_eq_nil_of_le (by omega)]

/-- C10 witness: at logical time 3, `updates(5)` returns no edits and changes
nothing. -/
theorem updates_ahead_empty_witness :
    (Drawing.updates 0 (⟨some "x", 0, [4], 3, [], 0⟩ : Drawing Nat) 5).1
        = UpdatesOutcome.ok []
    ∧ (Drawing.updates 0 (⟨some "x", 0, [4], 3, [], 0⟩ : Drawing Nat) 5).2.edits = [4]
    ∧ (Drawing.updates 0 (⟨some "x", 0, [4], 3, [], 0⟩ : Drawing Nat) 5).2.logicalTime
        = 3
    ∧ (Drawing.updates 0 (⟨some "x", 0, [4], 3, [], 0⟩ : Drawing Nat) 5).2.image
        = some "x" :=
  updates_ahead_empty (⟨some "x", 0, [4], 3, [], 0⟩ : Drawing Nat) 5 0 (by decide)

end Doodle
